import Mathlib

/-! Snake-CPP: the game controller of `src/Game.cpp`

A shallow embedding of the controller class `Game` (key handling, timed
movement, collision detection, restart) together with the two collaborators
it drives, `Snake` and `Food`.

* `Game.cpp` is embedded function by function: `isOpposite`,
  `Game::Game`, `Game::handleKeyPress`, `Game::update`,
  `Game::handleCollisions`, `Game::isOutOfBounds`, `Game::reset`.
* `Snake.cpp` and `Food.cpp` are included by `Game.cpp` but are not part of
  the sources at hand; `Snake` and `Food` are modelled from the written
  specification (sections 4.1 and 4.2).
* Coordinates are `float` in the program.  Every coordinate the game computes
  is a sum of multiples of the cell size 20 of small magnitude, which `float`
  represents exactly, so coordinates are embedded as integers.
* The random draw of `Food::spawn` and the reading of the move clock are
  inputs of the operations that consult them.
* Rendering, font loading and the console echo of the score are left out.
-/

namespace SnakeGame

/-! ## Geometry -/

/-- Two-component vector `sf::Vector2f`, used for positions and directions. -/
structure Vector2f where
  x : Int
  y : Int
deriving DecidableEq

/-- Two-component vector `sf::Vector2u`, used for the window size. -/
structure Vector2u where
  x : Nat
  y : Nat
deriving DecidableEq

instance : Add Vector2f := ⟨fun a b => ⟨a.x + b.x, a.y + b.y⟩⟩

instance : Neg Vector2f := ⟨fun a => ⟨-a.x, -a.y⟩⟩

/-- Constant `WINDOW_WIDTH` of `Game.cpp`. -/
def WINDOW_WIDTH : Nat := 800

/-- Constant `WINDOW_HEIGHT` of `Game.cpp`. -/
def WINDOW_HEIGHT : Nat := 600

/-- Constant `GRID_CELL_SIZE` of `Game.cpp`. -/
def GRID_CELL_SIZE : Int := 20

/-- Function `isOpposite` of `Game.cpp`:
`lhs.x == -rhs.x && lhs.y == -rhs.y`. -/
def isOpposite (lhs rhs : Vector2f) : Bool :=
  lhs.x == -rhs.x && lhs.y == -rhs.y

/-! ## Snake (from the specification, section 4.1) -/

/-- Modelled from the spec: class `Snake` of `Snake.cpp`, which is not among
the sources.  The body is the ordered, head-first, never empty sequence of
segment positions: `head` followed by the `trailing` segments.  `direction`
is the heading and `growPending` the pending-growth flag. -/
structure Snake where
  head : Vector2f
  trailing : List Vector2f
  direction : Vector2f
  growPending : Bool
deriving DecidableEq

namespace Snake

/-- Modelled from the spec: the default constructor `Snake()` of `Snake.cpp`,
the initial one-segment snake at the origin, heading right. -/
def new : Snake :=
  { head := ⟨0, 0⟩, trailing := [], direction := ⟨GRID_CELL_SIZE, 0⟩, growPending := false }

/-- Modelled from the spec: accessor `Snake::getHead` of `Snake.cpp`, read as
the position of the head segment. -/
def getHead (s : Snake) : Vector2f := s.head

/-- Modelled from the spec: accessor `Snake::getBody` of `Snake.cpp`, the
segment positions head first. -/
def getBody (s : Snake) : List Vector2f := s.head :: s.trailing

/-- Modelled from the spec: `Snake::setDirection` of `Snake.cpp` sets the
heading and nothing else. -/
def setDirection (d : Vector2f) (s : Snake) : Snake :=
  { s with direction := d }

/-- Modelled from the spec: `Snake::move` of `Snake.cpp`.  The new head is
head + direction and is inserted at the front; the tail segment is removed
unless growth is pending, in which case it is kept and the flag is used up. -/
def move (s : Snake) : Snake :=
  { head := s.head + s.direction
    trailing := if s.growPending then s.getBody else s.getBody.dropLast
    direction := s.direction
    growPending := false }

/-- Modelled from the spec: `Snake::grow` of `Snake.cpp` marks that the next
move keeps the tail. -/
def grow (s : Snake) : Snake :=
  { s with growPending := true }

end Snake

/-! ## Food (from the specification, section 4.2) -/

/-- Modelled from the spec: class `Food` of `Food.cpp`, which is not among the
sources: a single position. -/
structure Food where
  position : Vector2f
deriving DecidableEq

namespace Food

/-- Modelled from the spec: the default constructor `Food()` of `Food.cpp`.
The controller spawns the food right after constructing it, so the position
chosen here is never observed. -/
def new : Food := { position := ⟨0, 0⟩ }

/-- Modelled from the spec: the positions `Food::spawn(bounds)` of `Food.cpp`
can pick, the grid-aligned positions within `[0, bounds)`. -/
def validDraw (bounds : Vector2u) (p : Vector2f) : Bool :=
  decide (0 ≤ p.x) && decide (p.x < bounds.x) && decide (p.x % GRID_CELL_SIZE = 0) &&
  decide (0 ≤ p.y) && decide (p.y < bounds.y) && decide (p.y % GRID_CELL_SIZE = 0)

/-- Modelled from the spec: `Food::spawn(bounds)` of `Food.cpp` moves the food
to a random position; `draw` is the position the random source yields on this
call. -/
def spawn (_bounds : Vector2u) (draw : Vector2f) (_f : Food) : Food :=
  { position := draw }

end Food

/-! ## The controller `Game` -/

/-- Keyboard keys `sf::Keyboard::Key`: the six keys the controller tells
apart, and every other key of the enumeration by its code. -/
inductive Key where
  | Escape
  | Space
  | Up
  | Down
  | Left
  | Right
  | Other (code : Nat)
deriving DecidableEq

/-- Calls the controller makes on its collaborators `m_snake`, `m_food` and
`m_moveClock`. -/
inductive Call where
  | setDirection (d : Vector2f)
  | move
  | grow
  | spawn (bounds : Vector2u)
  | clockRestart
deriving DecidableEq

/-- Members of class `Game`.  `m_window` is kept as its open flag and its
size, `m_scoreText` as the string it holds.  `calls` is not a member: it logs,
oldest first, the calls made on the collaborators.  `m_moveInterval`, `m_font`
and `m_gameOverText` never change after construction and are left out.
`m_score` is an `int` that gains 10 per food eaten; it stays far below the
range of `int`, so it is an integer without wraparound. -/
structure Game where
  m_windowOpen : Bool
  m_windowSize : Vector2u
  m_snake : Snake
  m_food : Food
  m_direction : Vector2f
  m_gameOver : Bool
  m_score : Int
  m_scoreText : String
  calls : List Call
deriving DecidableEq

namespace Game

/-- Constructor `Game::Game` (Game.cpp lines 48-78); `draw` is the position
picked by the call of `m_food.spawn`. -/
def new (draw : Vector2f) : Game :=
  { m_windowOpen := true
    m_windowSize := ⟨WINDOW_WIDTH, WINDOW_HEIGHT⟩
    m_snake := Snake.new.setDirection ⟨GRID_CELL_SIZE, 0⟩
    m_food := Food.new.spawn ⟨WINDOW_WIDTH, WINDOW_HEIGHT⟩ draw
    m_direction := ⟨GRID_CELL_SIZE, 0⟩
    m_gameOver := false
    m_score := 0
    m_scoreText := "Score: 0"
    calls := [Call.spawn ⟨WINDOW_WIDTH, WINDOW_HEIGHT⟩, Call.setDirection ⟨GRID_CELL_SIZE, 0⟩] }

/-- Method `Game::isOutOfBounds` (Game.cpp lines 192-196). -/
def isOutOfBounds (position : Vector2f) : Bool :=
  decide (position.x < 0) || decide (position.y < 0) ||
  decide (position.x ≥ (WINDOW_WIDTH : Int)) ||
  decide (position.y ≥ (WINDOW_HEIGHT : Int))

/-- Method `Game::reset` (Game.cpp lines 198-206); `draw` is the position
picked by the call of `m_food.spawn`.  The score label is not touched. -/
def reset (draw : Vector2f) (g : Game) : Game :=
  { g with
    m_snake := Snake.new.setDirection ⟨GRID_CELL_SIZE, 0⟩
    m_food := g.m_food.spawn g.m_windowSize draw
    m_direction := ⟨GRID_CELL_SIZE, 0⟩
    m_gameOver := false
    m_score := 0
    calls := g.calls ++
      [Call.spawn g.m_windowSize, Call.setDirection ⟨GRID_CELL_SIZE, 0⟩, Call.clockRestart] }

/-- Method `Game::handleKeyPress` (Game.cpp lines 98-135); `draw` is the
position a call of `m_food.spawn` would pick (used by a restart only). -/
def handleKeyPress (key : Key) (draw : Vector2f) (g : Game) : Game :=
  if key = Key.Escape then
    { g with m_windowOpen := false }
  else if key = Key.Space ∧ g.m_gameOver = true then
    g.reset draw
  else if g.m_gameOver = true then
    g
  else
    let requested : Option Vector2f :=
      match key with
      | Key.Up => some ⟨0, -GRID_CELL_SIZE⟩
      | Key.Down => some ⟨0, GRID_CELL_SIZE⟩
      | Key.Left => some ⟨-GRID_CELL_SIZE, 0⟩
      | Key.Right => some ⟨GRID_CELL_SIZE, 0⟩
      | _ => none
    match requested with
    | none => g
    | some r =>
      if isOpposite r g.m_direction = false then
        { g with
          m_direction := r
          m_snake := g.m_snake.setDirection r
          calls := g.calls ++ [Call.setDirection r] }
      else
        g

/-- Method `Game::handleCollisions` (Game.cpp lines 149-172); `draw` is the
position a call of `m_food.spawn` would pick.  The loop over the segments of
index 1 and above, with its early return, is the `any` over the body without
its first element. -/
def handleCollisions (draw : Vector2f) (g : Game) : Game :=
  let headPos := g.m_snake.getHead
  if isOutOfBounds headPos = true then
    { g with m_gameOver := true }
  else if (g.m_snake.getBody.drop 1).any (fun segment => segment == headPos) = true then
    { g with m_gameOver := true }
  else if headPos = g.m_food.position then
    { g with
      m_snake := g.m_snake.grow
      m_food := g.m_food.spawn g.m_windowSize draw
      m_score := g.m_score + 10
      m_scoreText := "Score: " ++ toString (g.m_score + 10)
      calls := g.calls ++ [Call.grow, Call.spawn g.m_windowSize] }
  else
    g

/-- Method `Game::update` (Game.cpp lines 137-147); `elapsed` is the outcome
of the test `m_moveClock.getElapsedTime().asSeconds() >= m_moveInterval`, and
`draw` the position a call of `m_food.spawn` would pick. -/
def update (elapsed : Bool) (draw : Vector2f) (g : Game) : Game :=
  if g.m_gameOver = true then
    g
  else if elapsed = true then
    handleCollisions draw
      { g with m_snake := g.m_snake.move, calls := g.calls ++ [Call.move, Call.clockRestart] }
  else
    g

end Game

/-! ## Runs of the controller -/

/-- What one round of the loop of `Game::run` feeds the controller: a key
press taken from the event queue by `processEvents`, or a call of `update`
with the outcome of its clock test.  Both carry the position the random source
would yield should the food be spawned. -/
inductive Input where
  | keyPress (key : Key) (draw : Vector2f)
  | update (elapsed : Bool) (draw : Vector2f)
deriving DecidableEq

/-- One input handled by the controller. -/
def Game.step (g : Game) : Input → Game
  | Input.keyPress key draw => g.handleKeyPress key draw
  | Input.update elapsed draw => g.update elapsed draw

/-- The controller after handling the inputs in order. -/
def Game.run (g : Game) (inputs : List Input) : Game :=
  inputs.foldl Game.step g

/-- The heading the snake has at each call of `m_snake.move()` made while
the inputs are handled, oldest first. -/
def Game.moveDirections (g : Game) : List Input → List Vector2f
  | [] => []
  | Input.update true draw :: rest =>
    if g.m_gameOver = true then Game.moveDirections (g.update true draw) rest
    else g.m_snake.direction :: Game.moveDirections (g.update true draw) rest
  | i :: rest => Game.moveDirections (g.step i) rest

/-! ## Definitions that follow the wording of the specification -/

/-- Direction vector of an arrow key as the specification lists them:
Up = (0,-20), Down = (0,20), Left = (-20,0), Right = (20,0); other keys have
none. -/
def specArrowVector : Key → Option Vector2f
  | Key.Up => some ⟨0, -20⟩
  | Key.Down => some ⟨0, 20⟩
  | Key.Left => some ⟨-20, 0⟩
  | Key.Right => some ⟨20, 0⟩
  | _ => none

/-- Position `p` lies in the window `[0, 800) x [0, 600)`. -/
def specInWindow (p : Vector2f) : Prop :=
  0 ≤ p.x ∧ p.x < 800 ∧ 0 ≤ p.y ∧ p.y < 600

/-- Text the score label is specified to show for a score: "Score: " followed
by the decimal value. -/
def specScoreLabel (score : Int) : String :=
  "Score: " ++ toString score

/-- One of the four grid-cell-sized unit directions the specification lists:
(20,0), (-20,0), (0,20), (0,-20). -/
def specUnitDirection (d : Vector2f) : Prop :=
  d = ⟨20, 0⟩ ∨ d = ⟨-20, 0⟩ ∨ d = ⟨0, 20⟩ ∨ d = ⟨0, -20⟩

/-- Both coordinates of `p` are integer multiples of the cell size 20. -/
def specGridAligned (p : Vector2f) : Prop :=
  (∃ k : Int, p.x = 20 * k) ∧ (∃ k : Int, p.y = 20 * k)

/-- The number written `g` in the coupling of score and length: 1 if a growth
requested by `grow()` is still pending for the next move, 0 otherwise. -/
def specPendingGrowth (s : Snake) : Int :=
  if s.growPending = true then 1 else 0

/-- Consecutive move ticks without key presses: one call of `update` with the
interval elapsed for each entry of `draws`, the position the random source
would yield on that tick. -/
def moveTicks (draws : List Vector2f) : List Input :=
  draws.map (Input.update true)

/-! ## Auxiliary facts -/

theorem Vector2f.neg_def (a : Vector2f) : -a = ⟨-a.x, -a.y⟩ := rfl

theorem Vector2f.add_def (a b : Vector2f) : a + b = ⟨a.x + b.x, a.y + b.y⟩ := rfl

theorem Vector2f.ext_iff (a b : Vector2f) : a = b ↔ a.x = b.x ∧ a.y = b.y := by
  cases a; cases b; simp

/-- The guard of `handleKeyPress` holds exactly for the exact negation. -/
theorem isOpposite_iff (lhs rhs : Vector2f) : isOpposite lhs rhs = true ↔ lhs = -rhs := by
  simp [isOpposite, Vector2f.neg_def, Vector2f.ext_iff]

/-- The head is left where `move` put it by the collision handling. -/
theorem Game.handleCollisions_head (draw : Vector2f) (g : Game) :
    (g.handleCollisions draw).m_snake.getHead = g.m_snake.getHead := by
  unfold Game.handleCollisions
  simp only
  split_ifs <;> rfl

/-- A segment of index at least 1 equals `p` exactly when the scan over the
body without its first element finds `p`. -/
theorem any_drop_one_iff (body : List Vector2f) (p : Vector2f) :
    (body.drop 1).any (fun segment => segment == p) = true ↔
      ∃ i, 1 ≤ i ∧ i < body.length ∧ body[i]? = some p := by
  cases body with
  | nil => simp
  | cons b rest =>
    simp only [List.drop_succ_cons, List.drop_zero, List.any_eq_true, beq_iff_eq,
      List.length_cons]
    constructor
    · rintro ⟨q, hq, rfl⟩
      obtain ⟨n, hn, hget⟩ := List.getElem_of_mem hq
      exact ⟨n + 1, by omega, by omega, by simp [List.getElem?_eq_getElem hn, hget]⟩
    · rintro ⟨i, h1, _, hi⟩
      obtain ⟨j, rfl⟩ : ∃ j, i = j + 1 := ⟨i - 1, by omega⟩
      rw [List.getElem?_cons_succ] at hi
      exact ⟨p, List.getElem?_mem hi, rfl⟩

/-- The four comparisons of `isOutOfBounds`. -/
theorem Game.isOutOfBounds_eq_true (p : Vector2f) :
    Game.isOutOfBounds p = true ↔ (p.x < 0 ∨ p.y < 0 ∨ p.x ≥ 800 ∨ p.y ≥ 600) := by
  simp only [Game.isOutOfBounds, WINDOW_WIDTH, WINDOW_HEIGHT, Bool.or_eq_true,
    decide_eq_true_eq, Nat.cast_ofNat]
  constructor <;> intro h <;> omega

/-- Out of bounds is the complement of the window. -/
theorem Game.isOutOfBounds_eq_true_iff_outside (p : Vector2f) :
    Game.isOutOfBounds p = true ↔ ¬ specInWindow p := by
  rw [Game.isOutOfBounds_eq_true]
  unfold specInWindow
  constructor
  · intro h; omega
  · intro h
    by_contra hc
    exact h (by omega)

/-! ## Key handling -/

/-- Claim C1: in a Playing state an arrow key whose direction vector is the
exact negation of the current direction `m_direction` is rejected by
`handleKeyPress`: the whole game state, `m_direction` included, stays as it
was, and no call (in particular no `setDirection`) is made on the snake. -/
theorem handleKeyPress_reversal_rejected (g : Game) (key : Key) (d draw : Vector2f)
    (hplay : g.m_gameOver = false) (harrow : specArrowVector key = some d)
    (hrev : d = -g.m_direction) :
    g.handleKeyPress key draw = g ∧
      (g.handleKeyPress key draw).m_direction = g.m_direction ∧
      (g.handleKeyPress key draw).calls = g.calls := by
  have hopp : isOpposite d g.m_direction = true := (isOpposite_iff _ _).2 hrev
  have hstate : g.handleKeyPress key draw = g := by
    cases key <;> simp [specArrowVector] at harrow <;> subst harrow <;>
      simp [Game.handleKeyPress, hplay, GRID_CELL_SIZE, hopp]
  rw [hstate]
  exact ⟨rfl, rfl, rfl⟩

theorem handleKeyPress_reversal_rejected_witness :
    (Game.new ⟨100, 100⟩).m_gameOver = false ∧
      specArrowVector Key.Left = some ⟨-20, 0⟩ ∧
      (⟨-20, 0⟩ : Vector2f) = -(Game.new ⟨100, 100⟩).m_direction ∧
      (Game.new ⟨100, 100⟩).handleKeyPress Key.Left ⟨0, 0⟩ = Game.new ⟨100, 100⟩ :=
  ⟨by decide, by decide, by decide,
    (handleKeyPress_reversal_rejected (Game.new ⟨100, 100⟩) Key.Left ⟨-20, 0⟩ ⟨0, 0⟩
      (by decide) (by decide) (by decide)).1⟩

/-- Claim C2: in a Playing state an arrow key whose direction vector `d` is
not the exact negation of the current direction is accepted by
`handleKeyPress`: afterwards `m_direction` is `d`, the snake has been given
heading `d` by one call of `setDirection`, and the next move tick puts the
head at the old head plus `d`; score, game-over flag, body and food are as
before. -/
theorem handleKeyPress_turn_accepted (g : Game) (key : Key) (d draw draw2 : Vector2f)
    (hplay : g.m_gameOver = false) (harrow : specArrowVector key = some d)
    (hturn : d ≠ -g.m_direction) :
    (g.handleKeyPress key draw).m_direction = d ∧
      (g.handleKeyPress key draw).m_snake.direction = d ∧
      (g.handleKeyPress key draw).calls = g.calls ++ [Call.setDirection d] ∧
      ((g.handleKeyPress key draw).update true draw2).m_snake.getHead = g.m_snake.getHead + d ∧
      (g.handleKeyPress key draw).m_score = g.m_score ∧
      (g.handleKeyPress key draw).m_gameOver = false ∧
      (g.handleKeyPress key draw).m_snake.getBody = g.m_snake.getBody ∧
      (g.handleKeyPress key draw).m_food = g.m_food := by
  have hopp : isOpposite d g.m_direction = false := by
    rw [← Bool.not_eq_true, isOpposite_iff]
    exact hturn
  have hstate : g.handleKeyPress key draw =
      { g with
        m_direction := d
        m_snake := g.m_snake.setDirection d
        calls := g.calls ++ [Call.setDirection d] } := by
    cases key <;> simp [specArrowVector] at harrow <;> subst harrow <;>
      simp [Game.handleKeyPress, hplay, GRID_CELL_SIZE, hopp]
  rw [hstate]
  refine ⟨rfl, rfl, rfl, ?_, rfl, hplay, rfl, rfl⟩
  simp only [Game.update, hplay, Bool.false_eq_true, if_false, if_true,
    Game.handleCollisions_head]
  rfl

theorem handleKeyPress_turn_accepted_witness :
    (Game.new ⟨100, 100⟩).m_gameOver = false ∧
      specArrowVector Key.Down = some ⟨0, 20⟩ ∧
      (⟨0, 20⟩ : Vector2f) ≠ -(Game.new ⟨100, 100⟩).m_direction ∧
      ((Game.new ⟨100, 100⟩).handleKeyPress Key.Down ⟨0, 0⟩).m_direction = ⟨0, 20⟩ ∧
      (((Game.new ⟨100, 100⟩).handleKeyPress Key.Down ⟨0, 0⟩).update true ⟨0, 0⟩).m_snake.getHead
        = ⟨0, 20⟩ :=
  have h := handleKeyPress_turn_accepted (Game.new ⟨100, 100⟩) Key.Down ⟨0, 20⟩ ⟨0, 0⟩ ⟨0, 0⟩
    (by decide) (by decide) (by decide)
  ⟨by decide, by decide, by decide, h.1, h.2.2.2.1⟩

/-- Claim C3, evaluated on the code: from the constructed game, a move tick,
then the key presses Up and Left, then a second move tick.  Both key presses
pass the guard of `handleKeyPress`, each against the direction pending at
that moment, so the second tick moves with heading (-20, 0), the exact
negation of the heading (20, 0) of the tick before it, and the head returns
from (20, 0) to (0, 0). -/
theorem reversal_across_buffered_keys :
    Game.moveDirections (Game.new ⟨100, 100⟩)
        [Input.update true ⟨0, 0⟩, Input.keyPress Key.Up ⟨0, 0⟩,
          Input.keyPress Key.Left ⟨0, 0⟩, Input.update true ⟨0, 0⟩]
      = [⟨20, 0⟩, ⟨-20, 0⟩] ∧
    isOpposite ⟨-20, 0⟩ ⟨20, 0⟩ = true ∧
    (Game.run (Game.new ⟨100, 100⟩) [Input.update true ⟨0, 0⟩]).m_snake.getHead = ⟨20, 0⟩ ∧
    (Game.run (Game.new ⟨100, 100⟩)
        [Input.update true ⟨0, 0⟩, Input.keyPress Key.Up ⟨0, 0⟩,
          Input.keyPress Key.Left ⟨0, 0⟩]).m_direction = ⟨-20, 0⟩ ∧
    (Game.run (Game.new ⟨100, 100⟩)
        [Input.update true ⟨0, 0⟩, Input.keyPress Key.Up ⟨0, 0⟩,
          Input.keyPress Key.Left ⟨0, 0⟩, Input.update true ⟨0, 0⟩]).m_snake.getHead
      = ⟨0, 0⟩ := by
  decide

/-- With a body of three segments a reversal through two buffered key presses
ends the game: food is eaten on the first two ticks, the third tick completes
the body (60,0), (40,0), (20,0), and after Up and Left the next tick runs the
head into the segment at (40, 0). -/
theorem reversal_runs_into_own_body :
    (Game.run (Game.new ⟨20, 0⟩)
        [Input.update true ⟨40, 0⟩, Input.update true ⟨100, 100⟩,
          Input.update true ⟨0, 0⟩]).m_snake.getBody = [⟨60, 0⟩, ⟨40, 0⟩, ⟨20, 0⟩] ∧
    (Game.run (Game.new ⟨20, 0⟩)
        [Input.update true ⟨40, 0⟩, Input.update true ⟨100, 100⟩,
          Input.update true ⟨0, 0⟩]).m_gameOver = false ∧
    (Game.run (Game.new ⟨20, 0⟩)
        [Input.update true ⟨40, 0⟩, Input.update true ⟨100, 100⟩,
          Input.update true ⟨0, 0⟩, Input.keyPress Key.Up ⟨0, 0⟩,
          Input.keyPress Key.Left ⟨0, 0⟩, Input.update true ⟨0, 0⟩]).m_gameOver = true := by
  decide

/-! ## Bounds and collisions -/

/-- Claim C4: `isOutOfBounds p` is true exactly when `p.x < 0` or `p.y < 0` or
`p.x >= 800` or `p.y >= 600`, that is exactly when `p` lies outside
`[0, 800) x [0, 600)`. -/
theorem isOutOfBounds_iff (p : Vector2f) :
    (Game.isOutOfBounds p = true ↔ (p.x < 0 ∨ p.y < 0 ∨ p.x ≥ 800 ∨ p.y ≥ 600)) ∧
      (Game.isOutOfBounds p = true ↔ ¬ specInWindow p) :=
  ⟨Game.isOutOfBounds_eq_true p, Game.isOutOfBounds_eq_true_iff_outside p⟩

/-- A move tick from a Playing state: `update` with the interval elapsed is
`m_snake.move()`, the clock restart, then `handleCollisions`. -/
theorem Game.update_tick (g : Game) (draw : Vector2f) (hplay : g.m_gameOver = false) :
    g.update true draw =
      Game.handleCollisions draw
        { g with m_snake := g.m_snake.move, calls := g.calls ++ [Call.move, Call.clockRestart] } := by
  simp [Game.update, hplay]

/-- Claim C5: after a move tick from a Playing state the game is in GameOver
if and only if the moved head is outside `[0, 800) x [0, 600)` or equals the
position of a body segment of index at least 1; so a moved head that is in the
window, on no trailing segment and on the food leaves the game Playing. -/
theorem update_gameOver_iff (g : Game) (draw : Vector2f) (hplay : g.m_gameOver = false) :
    ((g.update true draw).m_gameOver = true ↔
        (¬ specInWindow g.m_snake.move.getHead ∨
          ∃ i, 1 ≤ i ∧ i < g.m_snake.move.getBody.length ∧
            g.m_snake.move.getBody[i]? = some g.m_snake.move.getHead)) ∧
      (specInWindow g.m_snake.move.getHead →
        (∀ i, 1 ≤ i → g.m_snake.move.getBody[i]? ≠ some g.m_snake.move.getHead) →
        g.m_snake.move.getHead = g.m_food.position →
        (g.update true draw).m_gameOver = false) := by
  have hiff : (g.update true draw).m_gameOver = true ↔
      (¬ specInWindow g.m_snake.move.getHead ∨
        ∃ i, 1 ≤ i ∧ i < g.m_snake.move.getBody.length ∧
          g.m_snake.move.getBody[i]? = some g.m_snake.move.getHead) := by
    rw [Game.update_tick g draw hplay, ← Game.isOutOfBounds_eq_true_iff_outside, ← any_drop_one_iff]
    unfold Game.handleCollisions
    simp only
    split_ifs with h1 h2 h3
    · exact ⟨fun _ => Or.inl h1, fun _ => rfl⟩
    · exact ⟨fun _ => Or.inr h2, fun _ => rfl⟩
    · constructor
      · intro h
        change g.m_gameOver = true at h
        rw [hplay] at h
        cases h
      · rintro (h | h)
        · exact absurd h h1
        · exact absurd h h2
    · constructor
      · intro h
        change g.m_gameOver = true at h
        rw [hplay] at h
        cases h
      · rintro (h | h)
        · exact absurd h h1
        · exact absurd h h2
  refine ⟨hiff, ?_⟩
  intro hin hfree _
  rw [← Bool.not_eq_true, hiff]
  rintro (hout | ⟨i, h1, _, hi⟩)
  · exact hout hin
  · exact hfree i h1 hi

theorem update_gameOver_iff_witness :
    (Game.new ⟨20, 0⟩).m_gameOver = false ∧
      specInWindow (Game.new ⟨20, 0⟩).m_snake.move.getHead ∧
      (Game.new ⟨20, 0⟩).m_snake.move.getHead = (Game.new ⟨20, 0⟩).m_food.position ∧
      ((Game.new ⟨20, 0⟩).update true ⟨100, 100⟩).m_gameOver = false :=
  have hin : specInWindow (Game.new ⟨20, 0⟩).m_snake.move.getHead := by
    simp [specInWindow, Game.new, Snake.new, Snake.setDirection, Snake.move, Snake.getHead,
      Vector2f.add_def, GRID_CELL_SIZE]
  ⟨by decide, hin, by decide,
    (update_gameOver_iff (Game.new ⟨20, 0⟩) ⟨100, 100⟩ (by decide)).2 hin
      (by
        intro i h1
        obtain ⟨j, rfl⟩ : ∃ j, i = j + 1 := ⟨i - 1, by omega⟩
        simp [Game.new, Snake.new, Snake.setDirection, Snake.move, Snake.getBody])
      (by decide)⟩

/-- Claim C6: on a move tick from a Playing state whose moved head is in the
window, on no segment of index at least 1, and on the food, the score grows by
exactly 10, the calls made after the move are one `grow` and one `spawn`, the
growth is pending, the food is where the spawn put it, and the game stays
Playing.  On a move tick whose moved head is not on the food the score and the
food are unchanged and no `spawn` is called. -/
theorem update_eat_food (g : Game) (draw : Vector2f) (hplay : g.m_gameOver = false) :
    (specInWindow g.m_snake.move.getHead →
      (∀ i, 1 ≤ i → g.m_snake.move.getBody[i]? ≠ some g.m_snake.move.getHead) →
      g.m_snake.move.getHead = g.m_food.position →
        (g.update true draw).m_score = g.m_score + 10 ∧
        (g.update true draw).calls =
          g.calls ++ [Call.move, Call.clockRestart, Call.grow, Call.spawn g.m_windowSize] ∧
        (g.update true draw).m_snake = g.m_snake.move.grow ∧
        (g.update true draw).m_food = g.m_food.spawn g.m_windowSize draw ∧
        (g.update true draw).m_gameOver = false) ∧
    (g.m_snake.move.getHead ≠ g.m_food.position →
        (g.update true draw).m_score = g.m_score ∧
        (g.update true draw).m_food = g.m_food ∧
        (g.update true draw).calls = g.calls ++ [Call.move, Call.clockRestart]) := by
  rw [Game.update_tick g draw hplay]
  unfold Game.handleCollisions
  simp only
  constructor
  · intro hin hfree hfood
    have hout : ¬ Game.isOutOfBounds g.m_snake.move.getHead = true := by
      rw [Game.isOutOfBounds_eq_true_iff_outside]
      exact not_not.2 hin
    have hself : ¬ ((g.m_snake.move.getBody.drop 1).any
        (fun segment => segment == g.m_snake.move.getHead) = true) := by
      rw [any_drop_one_iff]
      rintro ⟨i, h1, _, hi⟩
      exact hfree i h1 hi
    rw [if_neg hout, if_neg hself, if_pos hfood]
    simp [hplay]
  · intro hfood
    split_ifs <;> simp

theorem update_eat_food_witness :
    (Game.new ⟨20, 0⟩).m_gameOver = false ∧
      ((Game.new ⟨20, 0⟩).update true ⟨100, 100⟩).m_score = 10 ∧
      ((Game.new ⟨100, 100⟩).update true ⟨0, 0⟩).m_score = 0 :=
  have hin : specInWindow (Game.new ⟨20, 0⟩).m_snake.move.getHead := by
    simp [specInWindow, Game.new, Snake.new, Snake.setDirection, Snake.move, Snake.getHead,
      Vector2f.add_def, GRID_CELL_SIZE]
  ⟨by decide,
    ((update_eat_food (Game.new ⟨20, 0⟩) ⟨100, 100⟩ (by decide)).1 hin
      (by
        intro i h1
        obtain ⟨j, rfl⟩ : ∃ j, i = j + 1 := ⟨i - 1, by omega⟩
        simp [Game.new, Snake.new, Snake.setDirection, Snake.move, Snake.getBody])
      (by decide)).1,
    ((update_eat_food (Game.new ⟨100, 100⟩) ⟨0, 0⟩ (by decide)).2 (by decide)).1⟩

/-! ## Game over and restart -/

/-- Claim C7: GameOver is absorbing until restart.  In a state with
`m_gameOver` set, `update` changes nothing whatever the clock test yields, and
`handleKeyPress` with a key other than Space and Escape changes nothing; in
particular an arrow key leaves the direction as it was. -/
theorem gameOver_absorbing (g : Game) (hover : g.m_gameOver = true) :
    (∀ elapsed draw, g.update elapsed draw = g) ∧
      (∀ key draw, key ≠ Key.Space → key ≠ Key.Escape → g.handleKeyPress key draw = g) ∧
      (∀ key draw, key ≠ Key.Space → key ≠ Key.Escape →
        (g.handleKeyPress key draw).m_direction = g.m_direction) := by
  have hkey : ∀ key draw, key ≠ Key.Space → key ≠ Key.Escape →
      g.handleKeyPress key draw = g := by
    intro key draw hs he
    simp [Game.handleKeyPress, hover, hs, he]
  refine ⟨?_, hkey, ?_⟩
  · intro elapsed draw
    simp [Game.update, hover]
  · intro key draw hs he
    rw [hkey key draw hs he]

theorem gameOver_absorbing_witness :
    (Game.run (Game.new ⟨100, 100⟩)
        [Input.keyPress Key.Up ⟨0, 0⟩, Input.update true ⟨0, 0⟩]).m_gameOver = true ∧
      (Game.run (Game.new ⟨100, 100⟩)
        [Input.keyPress Key.Up ⟨0, 0⟩, Input.update true ⟨0, 0⟩]).update true ⟨0, 0⟩ =
        Game.run (Game.new ⟨100, 100⟩)
          [Input.keyPress Key.Up ⟨0, 0⟩, Input.update true ⟨0, 0⟩] ∧
      (Game.run (Game.new ⟨100, 100⟩)
        [Input.keyPress Key.Up ⟨0, 0⟩, Input.update true ⟨0, 0⟩]).handleKeyPress Key.Left ⟨0, 0⟩ =
        Game.run (Game.new ⟨100, 100⟩)
          [Input.keyPress Key.Up ⟨0, 0⟩, Input.update true ⟨0, 0⟩] :=
  have h := gameOver_absorbing
    (Game.run (Game.new ⟨100, 100⟩) [Input.keyPress Key.Up ⟨0, 0⟩, Input.update true ⟨0, 0⟩])
    (by decide)
  ⟨by decide, h.1 true ⟨0, 0⟩, h.2.1 Key.Left ⟨0, 0⟩ (by decide) (by decide)⟩

/-- Claim C8: the restart key Space in `handleKeyPress`.  In a Playing state
the whole game state is left as it was.  In a GameOver state the result has
score 0, is Playing, has direction (20, 0), a snake body of exactly one
segment at the origin, and the food respawned by exactly one call of `spawn`
(the calls made are that `spawn`, one `setDirection` and the clock restart). -/
theorem handleKeyPress_space (g : Game) (draw : Vector2f) :
    (g.m_gameOver = false → g.handleKeyPress Key.Space draw = g) ∧
      (g.m_gameOver = true →
        (g.handleKeyPress Key.Space draw).m_score = 0 ∧
        (g.handleKeyPress Key.Space draw).m_gameOver = false ∧
        (g.handleKeyPress Key.Space draw).m_direction = ⟨20, 0⟩ ∧
        (g.handleKeyPress Key.Space draw).m_snake.direction = ⟨20, 0⟩ ∧
        (g.handleKeyPress Key.Space draw).m_snake.getBody = [⟨0, 0⟩] ∧
        (g.handleKeyPress Key.Space draw).m_food = g.m_food.spawn g.m_windowSize draw ∧
        (g.handleKeyPress Key.Space draw).calls =
          g.calls ++ [Call.spawn g.m_windowSize, Call.setDirection ⟨20, 0⟩,
            Call.clockRestart]) := by
  constructor
  · intro hplay
    simp [Game.handleKeyPress, hplay]
  · intro hover
    have hstate : g.handleKeyPress Key.Space draw = g.reset draw := by
      simp [Game.handleKeyPress, hover]
    rw [hstate]
    exact ⟨rfl, rfl, rfl, rfl, rfl, rfl, rfl⟩

theorem handleKeyPress_space_witness :
    (Game.new ⟨100, 100⟩).m_gameOver = false ∧
      (Game.new ⟨100, 100⟩).handleKeyPress Key.Space ⟨0, 0⟩ = Game.new ⟨100, 100⟩ ∧
      (Game.run (Game.new ⟨20, 0⟩)
        [Input.update true ⟨100, 100⟩, Input.keyPress Key.Up ⟨0, 0⟩,
          Input.update true ⟨0, 0⟩]).m_gameOver = true ∧
      (Game.run (Game.new ⟨20, 0⟩)
        [Input.update true ⟨100, 100⟩, Input.keyPress Key.Up ⟨0, 0⟩,
          Input.update true ⟨0, 0⟩]).m_score = 10 ∧
      ((Game.run (Game.new ⟨20, 0⟩)
        [Input.update true ⟨100, 100⟩, Input.keyPress Key.Up ⟨0, 0⟩,
          Input.update true ⟨0, 0⟩]).handleKeyPress Key.Space ⟨40, 40⟩).m_score = 0 :=
  ⟨by decide, (handleKeyPress_space (Game.new ⟨100, 100⟩) ⟨0, 0⟩).1 (by decide), by decide,
    by decide,
    ((handleKeyPress_space
      (Game.run (Game.new ⟨20, 0⟩)
        [Input.update true ⟨100, 100⟩, Input.keyPress Key.Up ⟨0, 0⟩, Input.update true ⟨0, 0⟩])
      ⟨40, 40⟩).2 (by decide)).1⟩

/-- Claim C9, evaluated on the code: the constructed game eats the food at
(20, 0) on its first move tick (score 10, label "Score: 10"), turns up and
leaves the window on the second tick (GameOver), and is restarted with Space.
`reset` sets the score to 0 and leaves the label alone: the label still reads
"Score: 10", not "Score: 0". -/
theorem score_label_stale_after_restart :
    Food.validDraw ⟨800, 600⟩ ⟨20, 0⟩ = true ∧
    Food.validDraw ⟨800, 600⟩ ⟨100, 100⟩ = true ∧
    Food.validDraw ⟨800, 600⟩ ⟨40, 40⟩ = true ∧
    (Game.run (Game.new ⟨20, 0⟩)
        [Input.update true ⟨100, 100⟩, Input.keyPress Key.Up ⟨0, 0⟩,
          Input.update true ⟨0, 0⟩]).m_gameOver = true ∧
    (Game.run (Game.new ⟨20, 0⟩)
        [Input.update true ⟨100, 100⟩, Input.keyPress Key.Up ⟨0, 0⟩,
          Input.update true ⟨0, 0⟩, Input.keyPress Key.Space ⟨40, 40⟩]).m_score = 0 ∧
    (Game.run (Game.new ⟨20, 0⟩)
        [Input.update true ⟨100, 100⟩, Input.keyPress Key.Up ⟨0, 0⟩,
          Input.update true ⟨0, 0⟩, Input.keyPress Key.Space ⟨40, 40⟩]).m_scoreText
      = "Score: 10" ∧
    (Game.run (Game.new ⟨20, 0⟩)
        [Input.update true ⟨100, 100⟩, Input.keyPress Key.Up ⟨0, 0⟩,
          Input.update true ⟨0, 0⟩, Input.keyPress Key.Space ⟨40, 40⟩]).m_scoreText
      ≠ specScoreLabel 0 := by
  decide

/-! ## Scenarios -/

/-- A move tick of a snake heading right along the top row, with every
trailing segment at or left of the head and the next cell inside the window:
the game stays Playing, the heading stays, the head advances by one cell and
the trailing segments are at or left of the new head. -/
theorem Game.tick_right (g : Game) (draw : Vector2f) (x : Int)
    (hplay : g.m_gameOver = false) (hdir : g.m_snake.direction = ⟨20, 0⟩)
    (hhead : g.m_snake.head = ⟨x, 0⟩) (hx0 : 0 ≤ x + 20) (hx : x + 20 < 800)
    (hbody : ∀ p ∈ g.m_snake.trailing, p.x ≤ x) :
    (g.update true draw).m_gameOver = false ∧
      (g.update true draw).m_snake.direction = ⟨20, 0⟩ ∧
      (g.update true draw).m_snake.head = ⟨x + 20, 0⟩ ∧
      ∀ p ∈ (g.update true draw).m_snake.trailing, p.x ≤ x + 20 := by
  have hmhead : g.m_snake.move.getHead = ⟨x + 20, 0⟩ := by
    simp [Snake.move, Snake.getHead, hhead, hdir, Vector2f.add_def]
  have hmtrail : ∀ p ∈ g.m_snake.move.trailing, p.x ≤ x := by
    intro p hp
    have hmem : p ∈ g.m_snake.getBody := by
      simp only [Snake.move] at hp
      split_ifs at hp
      · exact hp
      · exact List.mem_of_mem_dropLast hp
    simp only [Snake.getBody, List.mem_cons] at hmem
    rcases hmem with rfl | hmem
    · simp [hhead]
    · exact hbody p hmem
  have hout : ¬ Game.isOutOfBounds g.m_snake.move.getHead = true := by
    rw [Game.isOutOfBounds_eq_true, hmhead]
    simp only
    omega
  have hself : ¬ ((g.m_snake.move.getBody.drop 1).any
      (fun segment => segment == g.m_snake.move.getHead) = true) := by
    simp only [Snake.getBody, List.drop_succ_cons, List.drop_zero, List.any_eq_true,
      beq_iff_eq, not_exists, not_and]
    intro p hp hpe
    have hle := hmtrail p hp
    rw [hpe, hmhead] at hle
    simp only at hle
    omega
  have hmdir : g.m_snake.move.direction = ⟨20, 0⟩ := by simp [Snake.move, hdir]
  have hmtrail2 : ∀ p ∈ g.m_snake.move.trailing, p.x ≤ x + 20 := by
    intro p hp
    have := hmtrail p hp
    omega
  rw [Game.update_tick g draw hplay]
  unfold Game.handleCollisions
  simp only
  rw [if_neg hout, if_neg hself]
  split_ifs
  · exact ⟨hplay, hmdir, hmhead, hmtrail2⟩
  · exact ⟨hplay, hmdir, hmhead, hmtrail2⟩

/-- Claim C10: whatever positions the food takes, the constructed game (one
segment at the origin, heading right with step 20) has, after exactly three
move ticks and no key press, its head at (60, 0) and is still Playing. -/
theorem three_ticks_head_at_60 (d0 d1 d2 d3 : Vector2f) :
    (Game.new d0).m_snake.getBody = [⟨0, 0⟩] ∧
      (Game.new d0).m_snake.direction = ⟨20, 0⟩ ∧
      (Game.run (Game.new d0)
        [Input.update true d1, Input.update true d2, Input.update true d3]).m_snake.getHead
        = ⟨60, 0⟩ ∧
      (Game.run (Game.new d0)
        [Input.update true d1, Input.update true d2, Input.update true d3]).m_gameOver
        = false := by
  have h0 : ∀ p ∈ (Game.new d0).m_snake.trailing, p.x ≤ 0 := by
    intro p hp
    simp [Game.new, Snake.new, Snake.setDirection] at hp
  obtain ⟨p1, e1, a1, b1⟩ := Game.tick_right (Game.new d0) d1 0 rfl rfl rfl
    (by norm_num) (by norm_num) h0
  obtain ⟨p2, e2, a2, b2⟩ := Game.tick_right ((Game.new d0).update true d1) d2 (0 + 20) p1 e1 a1
    (by norm_num) (by norm_num) b1
  obtain ⟨p3, _, a3, _⟩ := Game.tick_right (((Game.new d0).update true d1).update true d2) d3
    (0 + 20 + 20) p2 e2 a2 (by norm_num) (by norm_num) b2
  refine ⟨rfl, rfl, ?_, p3⟩
  show ((((Game.new d0).update true d1).update true d2).update true d3).m_snake.head = ⟨60, 0⟩
  rw [a3]
  norm_num

/-- A run over two input lists in a row is the run over the second from the
state the first one leaves. -/
theorem Game.run_append (g : Game) (xs ys : List Input) :
    g.run (xs ++ ys) = (g.run xs).run ys := by
  simp [Game.run, List.foldl_append]

/-- A move tick that takes the head past the right edge: from a Playing state
with the head at x = 780 and heading (20, 0) the head lands at x = 800, the
game is over, and the score and the food are as before. -/
theorem Game.tick_into_right_wall (g : Game) (draw : Vector2f)
    (hplay : g.m_gameOver = false) (hhead : g.m_snake.getHead.x = 780)
    (hdir : g.m_snake.direction = ⟨20, 0⟩) :
    (g.update true draw).m_snake.getHead.x = 800 ∧
      (g.update true draw).m_gameOver = true ∧
      (g.update true draw).m_score = g.m_score ∧
      (g.update true draw).m_food = g.m_food := by
  have hmx : g.m_snake.move.getHead.x = 800 := by
    simp only [Snake.getHead] at hhead
    simp [Snake.move, Snake.getHead, hdir, Vector2f.add_def, hhead]
  have hout : Game.isOutOfBounds g.m_snake.move.getHead = true := by
    rw [Game.isOutOfBounds_eq_true]
    omega
  rw [Game.update_tick g draw hplay]
  unfold Game.handleCollisions
  simp only
  rw [if_pos hout]
  exact ⟨hmx, rfl, rfl, rfl⟩

/-- Move ticks of a snake heading right along the top row: as long as the
head stays inside the window the game stays Playing and the head advances by
one cell per tick. -/
theorem Game.run_moveTicks_right (draws : List Vector2f) :
    ∀ (g : Game) (x : Int), g.m_gameOver = false → g.m_snake.direction = ⟨20, 0⟩ →
      g.m_snake.head = ⟨x, 0⟩ → 0 ≤ x → x + 20 * (draws.length : Int) < 800 →
      (∀ p ∈ g.m_snake.trailing, p.x ≤ x) →
      (g.run (moveTicks draws)).m_gameOver = false ∧
        (g.run (moveTicks draws)).m_snake.direction = ⟨20, 0⟩ ∧
        (g.run (moveTicks draws)).m_snake.head = ⟨x + 20 * (draws.length : Int), 0⟩ := by
  induction draws with
  | nil =>
    intro g x hplay hdir hhead _ _ _
    simpa [moveTicks, Game.run] using ⟨hplay, hdir, hhead⟩
  | cons d ds ih =>
    intro g x hplay hdir hhead hx0 hx hbody
    simp only [List.length_cons, Nat.cast_add, Nat.cast_one] at hx ⊢
    obtain ⟨p1, e1, a1, b1⟩ := Game.tick_right g d x hplay hdir hhead (by omega) (by omega) hbody
    have h := ih (g.update true d) (x + 20) p1 e1 a1 (by omega) (by omega) b1
    have hrun : g.run (moveTicks (d :: ds)) = (g.update true d).run (moveTicks ds) := rfl
    rw [hrun]
    refine ⟨h.1, h.2.1, ?_⟩
    rw [h.2.2]
    congr 1
    ring

/-- Claim C11: the right-wall scenario.  From every Playing state whose head
is at x = 780 and whose heading is (20, 0), the next move tick puts the head
at x = 800 and sets GameOver on that tick, with the score unchanged.  From the
constructed game with no key press and whatever positions the food takes, the
game is Playing after each of the first 39 move ticks, with the head one cell
further right per tick, and is GameOver after the 40th, with the head at
x = 800 and the score of the 39th tick. -/
theorem right_wall_scenario :
    (∀ (g : Game) (draw : Vector2f), g.m_gameOver = false → g.m_snake.getHead.x = 780 →
        g.m_snake.direction = ⟨20, 0⟩ →
        (g.update true draw).m_snake.getHead.x = 800 ∧
          (g.update true draw).m_gameOver = true ∧
          (g.update true draw).m_score = g.m_score) ∧
      (∀ (d0 : Vector2f) (draws : List Vector2f), draws.length ≤ 39 →
        ((Game.new d0).run (moveTicks draws)).m_gameOver = false ∧
          ((Game.new d0).run (moveTicks draws)).m_snake.getHead
            = ⟨20 * (draws.length : Int), 0⟩) ∧
      (∀ (d0 : Vector2f) (draws : List Vector2f), draws.length = 40 →
        ((Game.new d0).run (moveTicks draws)).m_gameOver = true ∧
          ((Game.new d0).run (moveTicks draws)).m_snake.getHead.x = 800 ∧
          ((Game.new d0).run (moveTicks draws)).m_score
            = ((Game.new d0).run (moveTicks draws.dropLast)).m_score) := by
  have hfirst : ∀ (d0 : Vector2f) (draws : List Vector2f), draws.length ≤ 39 →
      ((Game.new d0).run (moveTicks draws)).m_gameOver = false ∧
        ((Game.new d0).run (moveTicks draws)).m_snake.direction = ⟨20, 0⟩ ∧
        ((Game.new d0).run (moveTicks draws)).m_snake.head
          = ⟨20 * (draws.length : Int), 0⟩ := by
    intro d0 draws hlen
    have h := Game.run_moveTicks_right draws (Game.new d0) 0 rfl rfl rfl (le_refl 0)
      (by omega) (by intro p hp; simp [Game.new, Snake.new, Snake.setDirection] at hp)
    simpa using h
  refine ⟨?_, ?_, ?_⟩
  · intro g draw hplay hhead hdir
    obtain ⟨h1, h2, h3, _⟩ := Game.tick_into_right_wall g draw hplay hhead hdir
    exact ⟨h1, h2, h3⟩
  · intro d0 draws hlen
    obtain ⟨h1, _, h3⟩ := hfirst d0 draws hlen
    exact ⟨h1, h3⟩
  · intro d0 draws hlen
    have hne : draws ≠ [] := by
      intro h
      simp [h] at hlen
    have hsplit : draws = draws.dropLast ++ [draws.getLast hne] :=
      (List.dropLast_append_getLast hne).symm
    have hlen39 : draws.dropLast.length = 39 := by
      simp [List.length_dropLast, hlen]
    obtain ⟨h1, h2, h3⟩ := hfirst d0 draws.dropLast (by omega)
    have hrun : (Game.new d0).run (moveTicks draws) =
        ((Game.new d0).run (moveTicks draws.dropLast)).update true (draws.getLast hne) := by
      conv_lhs => rw [hsplit]
      simp [moveTicks, Game.run_append, Game.run, Game.step]
    rw [hrun]
    have hx : ((Game.new d0).run (moveTicks draws.dropLast)).m_snake.getHead.x = 780 := by
      simp [Snake.getHead, h3, hlen39]
    obtain ⟨w1, w2, w3, _⟩ := Game.tick_into_right_wall _ (draws.getLast hne) h1 hx h2
    exact ⟨w2, w1, w3⟩

theorem right_wall_scenario_witness :
    (List.replicate 39 (⟨0, 0⟩ : Vector2f)).length ≤ 39 ∧
      ((Game.new ⟨100, 100⟩).run (moveTicks (List.replicate 39 ⟨0, 0⟩))).m_gameOver = false ∧
      ((Game.new ⟨100, 100⟩).run (moveTicks (List.replicate 39 ⟨0, 0⟩))).m_snake.getHead
        = ⟨780, 0⟩ ∧
      (List.replicate 40 (⟨0, 0⟩ : Vector2f)).length = 40 ∧
      ((Game.new ⟨100, 100⟩).run (moveTicks (List.replicate 40 ⟨0, 0⟩))).m_gameOver = true :=
  ⟨by decide,
    (right_wall_scenario.2.1 ⟨100, 100⟩ (List.replicate 39 ⟨0, 0⟩) (by decide)).1,
    (right_wall_scenario.2.1 ⟨100, 100⟩ (List.replicate 39 ⟨0, 0⟩) (by decide)).2,
    by decide,
    (right_wall_scenario.2.2 ⟨100, 100⟩ (List.replicate 40 ⟨0, 0⟩) (by decide)).1⟩

/-! ## Invariants of runs -/

/-- What `handleKeyPress` can do to a state: close the window, restart a game
that is over, nothing, or turn a Playing game to one of the four unit
directions. -/
theorem Game.handleKeyPress_cases (key : Key) (draw : Vector2f) (g : Game) :
    g.handleKeyPress key draw = { g with m_windowOpen := false } ∨
      (g.m_gameOver = true ∧ key = Key.Space ∧ g.handleKeyPress key draw = g.reset draw) ∨
      g.handleKeyPress key draw = g ∨
      (g.m_gameOver = false ∧ ∃ r, specUnitDirection r ∧
        g.handleKeyPress key draw =
          { g with
            m_direction := r
            m_snake := g.m_snake.setDirection r
            calls := g.calls ++ [Call.setDirection r] }) := by
  by_cases hover : g.m_gameOver = true
  · by_cases he : key = Key.Escape
    · exact Or.inl (by simp [Game.handleKeyPress, he])
    · by_cases hs : key = Key.Space
      · exact Or.inr (Or.inl ⟨hover, hs, by simp [Game.handleKeyPress, hs, hover]⟩)
      · exact Or.inr (Or.inr (Or.inl (by simp [Game.handleKeyPress, he, hs, hover])))
  · have hplay : g.m_gameOver = false := by simpa using hover
    cases key with
    | Escape => exact Or.inl (by simp [Game.handleKeyPress])
    | Space => exact Or.inr (Or.inr (Or.inl (by simp [Game.handleKeyPress, hplay])))
    | Other code => exact Or.inr (Or.inr (Or.inl (by simp [Game.handleKeyPress, hplay])))
    | _ =>
      simp only [Game.handleKeyPress, hplay, reduceCtorEq, if_false, false_and,
        Bool.false_eq_true]
      split_ifs
      · exact Or.inr (Or.inr (Or.inr ⟨trivial, _,
          by simp [specUnitDirection, GRID_CELL_SIZE], rfl⟩))
      · exact Or.inr (Or.inr (Or.inl rfl))

/-- What `update` can do to a state: nothing, or a move tick from a Playing
state, which ends the game, or lands on a free cell inside the window and
there eats the food or just moves. -/
theorem Game.update_cases (elapsed : Bool) (draw : Vector2f) (g : Game) :
    g.update elapsed draw = g ∨
      (g.m_gameOver = false ∧
        (g.update elapsed draw =
            { g with
              m_snake := g.m_snake.move
              calls := g.calls ++ [Call.move, Call.clockRestart]
              m_gameOver := true } ∨
          (Game.isOutOfBounds g.m_snake.move.getHead = false ∧
            g.m_snake.move.getHead ∉ g.m_snake.move.trailing ∧
            (g.update elapsed draw =
                { g with
                  m_snake := g.m_snake.move.grow
                  m_food := g.m_food.spawn g.m_windowSize draw
                  m_score := g.m_score + 10
                  m_scoreText := "Score: " ++ toString (g.m_score + 10)
                  calls := g.calls ++ [Call.move, Call.clockRestart] ++
                    [Call.grow, Call.spawn g.m_windowSize] } ∨
              g.update elapsed draw =
                { g with
                  m_snake := g.m_snake.move
                  calls := g.calls ++ [Call.move, Call.clockRestart] })))) := by
  by_cases hover : g.m_gameOver = true
  · exact Or.inl (by simp [Game.update, hover])
  · have hplay : g.m_gameOver = false := by simpa using hover
    cases elapsed
    · exact Or.inl (by simp [Game.update, hplay])
    · refine Or.inr ⟨hplay, ?_⟩
      rw [Game.update_tick g draw hplay]
      unfold Game.handleCollisions
      simp only
      split_ifs with h1 h2 h3
      · exact Or.inl rfl
      · exact Or.inl rfl
      · refine Or.inr ⟨by simpa using h1, ?_, Or.inl rfl⟩
        simpa [Snake.getBody] using h2
      · refine Or.inr ⟨by simpa using h1, ?_, Or.inr rfl⟩
        simpa [Snake.getBody] using h2

/-- Induction over one input: a property of game states is kept by every
input if it is kept by closing the window, by a restart, by a turn to a unit
direction, by a move tick that ends the game, by one that eats and by one that
only moves. -/
theorem Game.step_induction (P : Game → Prop)
    (hclose : ∀ g, P g → P { g with m_windowOpen := false })
    (hreset : ∀ g draw, P g → g.m_gameOver = true → P (g.reset draw))
    (hturn : ∀ g r, P g → g.m_gameOver = false → specUnitDirection r →
      P { g with
          m_direction := r
          m_snake := g.m_snake.setDirection r
          calls := g.calls ++ [Call.setDirection r] })
    (hover : ∀ g, P g → g.m_gameOver = false →
      P { g with
          m_snake := g.m_snake.move
          calls := g.calls ++ [Call.move, Call.clockRestart]
          m_gameOver := true })
    (heat : ∀ g draw, P g → g.m_gameOver = false →
      Game.isOutOfBounds g.m_snake.move.getHead = false →
      g.m_snake.move.getHead ∉ g.m_snake.move.trailing →
      P { g with
          m_snake := g.m_snake.move.grow
          m_food := g.m_food.spawn g.m_windowSize draw
          m_score := g.m_score + 10
          m_scoreText := "Score: " ++ toString (g.m_score + 10)
          calls := g.calls ++ [Call.move, Call.clockRestart] ++
            [Call.grow, Call.spawn g.m_windowSize] })
    (hmove : ∀ g, P g → g.m_gameOver = false →
      Game.isOutOfBounds g.m_snake.move.getHead = false →
      g.m_snake.move.getHead ∉ g.m_snake.move.trailing →
      P { g with
          m_snake := g.m_snake.move
          calls := g.calls ++ [Call.move, Call.clockRestart] })
    (g : Game) (i : Input) (hg : P g) : P (g.step i) := by
  cases i with
  | keyPress key draw =>
    simp only [Game.step]
    rcases Game.handleKeyPress_cases key draw g with h | ⟨ho, _, h⟩ | h | ⟨hp, r, hr, h⟩
    · rw [h]; exact hclose g hg
    · rw [h]; exact hreset g draw hg ho
    · rw [h]; exact hg
    · rw [h]; exact hturn g r hg hp hr
  | update elapsed draw =>
    simp only [Game.step]
    rcases Game.update_cases elapsed draw g with h | ⟨hp, h | ⟨hin, hfree, h | h⟩⟩
    · rw [h]; exact hg
    · rw [h]; exact hover g hg hp
    · rw [h]; exact heat g draw hg hp hin hfree
    · rw [h]; exact hmove g hg hp hin hfree

/-- Induction over a run: a property kept by every input holds after the run
if it holds before. -/
theorem Game.run_induction (P : Game → Prop) (hstep : ∀ g i, P g → P (g.step i))
    (inputs : List Input) : ∀ g, P g → P (g.run inputs) := by
  induction inputs with
  | nil => intro g hg; exact hg
  | cons i rest ih => intro g hg; exact ih (g.step i) (hstep g i hg)

/-! ## Body length -/

/-- The trailing segments after a move are taken, in order, from the body
before the move. -/
theorem Snake.move_trailing_sublist (s : Snake) : s.move.trailing.Sublist s.getBody := by
  simp only [Snake.move]
  split_ifs
  · exact List.Sublist.refl _
  · exact List.dropLast_sublist _

/-- The body after a move is one segment longer if growth was pending and as
long as before otherwise. -/
theorem Snake.move_length (s : Snake) :
    s.move.getBody.length = s.getBody.length + (if s.growPending = true then 1 else 0) := by
  simp only [Snake.move, Snake.getBody]
  split_ifs <;> simp

/-- The collision handling leaves the body as the move made it. -/
theorem Game.handleCollisions_body (draw : Vector2f) (g : Game) :
    (g.handleCollisions draw).m_snake.getBody = g.m_snake.getBody := by
  unfold Game.handleCollisions
  simp only
  split_ifs <;> rfl

/-- The body length across one input: it does not decrease unless the input
is the restart of a game that is over. -/
theorem Game.step_length_le (g : Game) (i : Input)
    (h : g.m_gameOver = false ∨ ∀ draw, i ≠ Input.keyPress Key.Space draw) :
    g.m_snake.getBody.length ≤ (g.step i).m_snake.getBody.length := by
  cases i with
  | keyPress key draw =>
    simp only [Game.step]
    rcases Game.handleKeyPress_cases key draw g with e | ⟨ho, hk, _⟩ | e | ⟨_, r, _, e⟩
    · rw [e]
    · rcases h with h | h
      · rw [ho] at h
        cases h
      · exact absurd (by rw [hk]) (h draw)
    · rw [e]
    · rw [e]
      exact le_refl _
  | update elapsed draw =>
    simp only [Game.step]
    rcases Game.update_cases elapsed draw g with e | ⟨_, e | ⟨_, _, e | e⟩⟩
    · rw [e]
    all_goals
      rw [e]
      show g.m_snake.getBody.length ≤ g.m_snake.move.getBody.length
      rw [Snake.move_length]
      exact Nat.le_add_right _ _

/-- Claim C12: on every move tick from a Playing state the body length after
the tick is the length before plus 1 if a growth is pending and the length
before otherwise; a growth is pending after a tick exactly when the food was
eaten on that tick (moved head in the window, on no segment of index at least
1, and on the food), and key presses in a Playing state touch neither the body
nor the pending growth.  Across any input other than the restart of a game
that is over, the body length does not decrease. -/
theorem tick_body_length :
    (∀ (g : Game) (draw : Vector2f), g.m_gameOver = false →
      (g.update true draw).m_snake.getBody.length =
          g.m_snake.getBody.length + (if g.m_snake.growPending = true then 1 else 0) ∧
        ((g.update true draw).m_snake.growPending = true ↔
          (specInWindow g.m_snake.move.getHead ∧
            (∀ i, 1 ≤ i → g.m_snake.move.getBody[i]? ≠ some g.m_snake.move.getHead) ∧
            g.m_snake.move.getHead = g.m_food.position)) ∧
        (∀ key draw2, key ≠ Key.Escape →
          (g.handleKeyPress key draw2).m_snake.getBody = g.m_snake.getBody ∧
          (g.handleKeyPress key draw2).m_snake.growPending = g.m_snake.growPending)) ∧
      (∀ (g : Game) (i : Input),
        (g.m_gameOver = false ∨ ∀ draw, i ≠ Input.keyPress Key.Space draw) →
        g.m_snake.getBody.length ≤ (g.step i).m_snake.getBody.length) := by
  refine ⟨?_, Game.step_length_le⟩
  intro g draw hplay
  refine ⟨?_, ?_, ?_⟩
  · rw [Game.update_tick g draw hplay, Game.handleCollisions_body]
    exact Snake.move_length g.m_snake
  · have hfree : (∀ i, 1 ≤ i → g.m_snake.move.getBody[i]? ≠ some g.m_snake.move.getHead) ↔
        ¬ ((g.m_snake.move.getBody.drop 1).any
          (fun segment => segment == g.m_snake.move.getHead) = true) := by
      rw [any_drop_one_iff]
      constructor
      · rintro h ⟨i, h1, _, hi⟩
        exact h i h1 hi
      · intro h i h1 hi
        have hlt : i < g.m_snake.move.getBody.length := by
          by_contra hge
          rw [List.getElem?_eq_none (by omega)] at hi
          cases hi
        exact h ⟨i, h1, hlt, hi⟩
    have hwin : specInWindow g.m_snake.move.getHead ↔
        ¬ Game.isOutOfBounds g.m_snake.move.getHead = true := by
      rw [Game.isOutOfBounds_eq_true_iff_outside, not_not]
    rw [hfree, hwin, Game.update_tick g draw hplay]
    unfold Game.handleCollisions
    simp only
    have hmove : ¬ g.m_snake.move.growPending = true := by simp [Snake.move]
    split_ifs with h1 h2 h3
    · exact ⟨fun h => absurd h hmove, fun h => absurd h1 h.1⟩
    · exact ⟨fun h => absurd h hmove, fun h => absurd h2 h.2.1⟩
    · exact ⟨fun _ => ⟨h1, h2, h3⟩, fun _ => rfl⟩
    · exact ⟨fun h => absurd h hmove, fun h => absurd h.2.2 h3⟩
  · intro key draw2 _
    rcases Game.handleKeyPress_cases key draw2 g with e | ⟨ho, _, _⟩ | e | ⟨_, r, _, e⟩
    · rw [e]
      exact ⟨rfl, rfl⟩
    · rw [ho] at hplay
      cases hplay
    · rw [e]
      exact ⟨rfl, rfl⟩
    · rw [e]
      exact ⟨rfl, rfl⟩

theorem tick_body_length_witness :
    ((Game.new ⟨20, 0⟩).update true ⟨100, 100⟩).m_gameOver = false ∧
      ((Game.new ⟨20, 0⟩).update true ⟨100, 100⟩).m_snake.growPending = true ∧
      ((Game.new ⟨20, 0⟩).update true ⟨100, 100⟩).m_snake.getBody.length = 1 ∧
      (((Game.new ⟨20, 0⟩).update true ⟨100, 100⟩).update true ⟨0, 0⟩).m_snake.getBody.length
        = 2 ∧
      ((Game.new ⟨100, 100⟩).update true ⟨0, 0⟩).m_snake.getBody.length = 1 :=
  ⟨by decide, by decide, by decide,
    (tick_body_length.1 ((Game.new ⟨20, 0⟩).update true ⟨100, 100⟩) ⟨0, 0⟩ (by decide)).1,
    (tick_body_length.1 (Game.new ⟨100, 100⟩) ⟨0, 0⟩ (by decide)).1⟩

/-! ## Distinct segments -/

/-- Claim C13: in every state reached from the constructed game by key
presses and updates (restarts included) in which the game is Playing, the
body segments of the snake occupy pairwise distinct positions. -/
theorem body_segments_distinct (d0 : Vector2f) (inputs : List Input)
    (hplay : ((Game.new d0).run inputs).m_gameOver = false) :
    ((Game.new d0).run inputs).m_snake.getBody.Nodup ∧
      ∀ i j, i < j → j < ((Game.new d0).run inputs).m_snake.getBody.length →
        ((Game.new d0).run inputs).m_snake.getBody[i]? ≠
          ((Game.new d0).run inputs).m_snake.getBody[j]? := by
  have hnodup : ((Game.new d0).run inputs).m_snake.getBody.Nodup := by
    refine Game.run_induction (fun g => g.m_gameOver = false → g.m_snake.getBody.Nodup)
      (Game.step_induction _ ?_ ?_ ?_ ?_ ?_ ?_) inputs (Game.new d0) ?_ hplay
    · intro g hg
      exact hg
    · intro g draw _ _ _
      simp [Game.reset, Snake.new, Snake.setDirection, Snake.getBody]
    · intro g r hg _ _
      exact hg
    · intro g _ _ hover
      cases hover
    · intro g draw hg hp _ hfree _
      exact List.nodup_cons.2 ⟨hfree, (hg hp).sublist (Snake.move_trailing_sublist _)⟩
    · intro g hg hp _ hfree _
      exact List.nodup_cons.2 ⟨hfree, (hg hp).sublist (Snake.move_trailing_sublist _)⟩
    · intro _
      simp [Game.new, Snake.new, Snake.setDirection, Snake.getBody]
  refine ⟨hnodup, ?_⟩
  intro i j hij hj heq
  rw [List.getElem?_eq_getElem (by omega), List.getElem?_eq_getElem hj, Option.some.injEq] at heq
  have := (List.Nodup.getElem_inj_iff hnodup).1 heq
  omega

theorem body_segments_distinct_witness :
    (Game.run (Game.new ⟨20, 0⟩)
        [Input.update true ⟨40, 0⟩, Input.update true ⟨100, 100⟩,
          Input.update true ⟨0, 0⟩]).m_gameOver = false ∧
      (Game.run (Game.new ⟨20, 0⟩)
        [Input.update true ⟨40, 0⟩, Input.update true ⟨100, 100⟩,
          Input.update true ⟨0, 0⟩]).m_snake.getBody = [⟨60, 0⟩, ⟨40, 0⟩, ⟨20, 0⟩] ∧
      (Game.run (Game.new ⟨20, 0⟩)
        [Input.update true ⟨40, 0⟩, Input.update true ⟨100, 100⟩,
          Input.update true ⟨0, 0⟩]).m_snake.getBody.Nodup :=
  ⟨by decide, by decide,
    (body_segments_distinct ⟨20, 0⟩
      [Input.update true ⟨40, 0⟩, Input.update true ⟨100, 100⟩, Input.update true ⟨0, 0⟩]
      (by decide)).1⟩

/-! ## Direction and position -/

/-- The heading given to the snake and the direction kept by the controller
agree after every run, and are one of the four unit directions. -/
theorem Game.run_heading (d0 : Vector2f) (inputs : List Input) :
    ((Game.new d0).run inputs).m_snake.direction = ((Game.new d0).run inputs).m_direction ∧
      specUnitDirection ((Game.new d0).run inputs).m_direction := by
  refine Game.run_induction
    (fun g => g.m_snake.direction = g.m_direction ∧ specUnitDirection g.m_direction)
    (Game.step_induction _ ?_ ?_ ?_ ?_ ?_ ?_) inputs (Game.new d0) ?_
  · intro g hg
    exact hg
  · intro g draw _ _
    exact ⟨rfl, Or.inl rfl⟩
  · intro g r _ _ hr
    exact ⟨rfl, hr⟩
  · intro g hg _
    exact hg
  · intro g draw hg _ _ _
    exact hg
  · intro g hg _ _ _
    exact hg
  · exact ⟨rfl, Or.inl rfl⟩

/-- Claim C14: in every state reached from the constructed game by key
presses, updates and restarts, the controller direction `m_direction` is one
of the four unit directions (20,0), (-20,0), (0,20), (0,-20); it is never
(0,0) and never diagonal. -/
theorem direction_is_unit (d0 : Vector2f) (inputs : List Input) :
    specUnitDirection ((Game.new d0).run inputs).m_direction ∧
      ((Game.new d0).run inputs).m_direction ≠ ⟨0, 0⟩ ∧
      (((Game.new d0).run inputs).m_direction.x = 0 ∨
        ((Game.new d0).run inputs).m_direction.y = 0) := by
  obtain ⟨_, hunit⟩ := Game.run_heading d0 inputs
  refine ⟨hunit, ?_, ?_⟩
  · rcases hunit with h | h | h | h <;> rw [h] <;> decide
  · rcases hunit with h | h | h | h <;> rw [h] <;> simp

/-- A grid-aligned position moved by a unit direction is grid-aligned. -/
theorem specGridAligned_add (p d : Vector2f) (hp : specGridAligned p)
    (hd : specUnitDirection d) : specGridAligned (p + d) := by
  obtain ⟨⟨a, ha⟩, ⟨b, hb⟩⟩ := hp
  rcases hd with h | h | h | h <;> subst h <;> simp only [Vector2f.add_def, specGridAligned]
  · exact ⟨⟨a + 1, by omega⟩, ⟨b, by omega⟩⟩
  · exact ⟨⟨a - 1, by omega⟩, ⟨b, by omega⟩⟩
  · exact ⟨⟨a, by omega⟩, ⟨b + 1, by omega⟩⟩
  · exact ⟨⟨a, by omega⟩, ⟨b - 1, by omega⟩⟩

/-- A segment of the body after a move is the new head or a segment of the
body before the move. -/
theorem Snake.mem_move_getBody (s : Snake) (p : Vector2f) (hp : p ∈ s.move.getBody) :
    p = s.head + s.direction ∨ p ∈ s.getBody := by
  rcases List.mem_cons.1 hp with h | h
  · exact Or.inl h
  · exact Or.inr ((Snake.move_trailing_sublist s).subset h)

/-- After every run the segments are grid-aligned, and inside the window
while the game is Playing. -/
theorem Game.run_body_in_grid (d0 : Vector2f) (inputs : List Input) :
    (∀ p ∈ ((Game.new d0).run inputs).m_snake.getBody, specGridAligned p) ∧
      (((Game.new d0).run inputs).m_gameOver = false →
        ∀ p ∈ ((Game.new d0).run inputs).m_snake.getBody, specInWindow p) := by
  have hmain := Game.run_induction
    (fun g => (g.m_snake.direction = g.m_direction ∧ specUnitDirection g.m_direction) ∧
      (∀ p ∈ g.m_snake.getBody, specGridAligned p) ∧
      (g.m_gameOver = false → ∀ p ∈ g.m_snake.getBody, specInWindow p))
    (Game.step_induction _ ?_ ?_ ?_ ?_ ?_ ?_) inputs (Game.new d0) ?_
  · exact hmain.2
  · intro g hg
    exact hg
  · intro g draw _ _
    refine ⟨⟨rfl, Or.inl rfl⟩, ?_, ?_⟩
    · intro p hp
      simp only [Game.reset, Snake.new, Snake.setDirection, Snake.getBody,
        List.mem_singleton] at hp
      subst hp
      exact ⟨⟨0, rfl⟩, ⟨0, rfl⟩⟩
    · intro _ p hp
      simp only [Game.reset, Snake.new, Snake.setDirection, Snake.getBody,
        List.mem_singleton] at hp
      subst hp
      simp [specInWindow]
  · intro g r hg _ hr
    exact ⟨⟨rfl, hr⟩, hg.2.1, hg.2.2⟩
  · intro g hg _
    obtain ⟨⟨hsync, hunit⟩, halign, _⟩ := hg
    refine ⟨⟨hsync, hunit⟩, ?_, ?_⟩
    · intro p hp
      rcases Snake.mem_move_getBody g.m_snake p hp with h | h
      · rw [h]
        exact specGridAligned_add _ _ (halign _ (List.mem_cons_self _ _)) (hsync ▸ hunit)
      · exact halign p h
    · intro hover
      cases hover
  · intro g draw hg hp hin _
    obtain ⟨⟨hsync, hunit⟩, halign, hwin⟩ := hg
    refine ⟨⟨hsync, hunit⟩, ?_, ?_⟩
    · intro p hp
      rcases Snake.mem_move_getBody g.m_snake p hp with h | h
      · rw [h]
        exact specGridAligned_add _ _ (halign _ (List.mem_cons_self _ _)) (hsync ▸ hunit)
      · exact halign p h
    · intro _ p hpm
      rcases Snake.mem_move_getBody g.m_snake p hpm with h | h
      · rw [h]
        have hnot : ¬ Game.isOutOfBounds g.m_snake.move.getHead = true := by simp [hin]
        rw [Game.isOutOfBounds_eq_true_iff_outside, not_not] at hnot
        exact hnot
      · exact hwin hp p h
  · intro g hg hp hin _
    obtain ⟨⟨hsync, hunit⟩, halign, hwin⟩ := hg
    refine ⟨⟨hsync, hunit⟩, ?_, ?_⟩
    · intro p hp
      rcases Snake.mem_move_getBody g.m_snake p hp with h | h
      · rw [h]
        exact specGridAligned_add _ _ (halign _ (List.mem_cons_self _ _)) (hsync ▸ hunit)
      · exact halign p h
    · intro _ p hpm
      rcases Snake.mem_move_getBody g.m_snake p hpm with h | h
      · rw [h]
        have hnot : ¬ Game.isOutOfBounds g.m_snake.move.getHead = true := by simp [hin]
        rw [Game.isOutOfBounds_eq_true_iff_outside, not_not] at hnot
        exact hnot
      · exact hwin hp p h
  · refine ⟨⟨rfl, Or.inl rfl⟩, ?_, ?_⟩
    · intro p hp
      simp only [Game.new, Snake.new, Snake.setDirection, Snake.getBody,
        List.mem_singleton] at hp
      subst hp
      exact ⟨⟨0, rfl⟩, ⟨0, rfl⟩⟩
    · intro _ p hp
      simp only [Game.new, Snake.new, Snake.setDirection, Snake.getBody,
        List.mem_singleton] at hp
      subst hp
      simp [specInWindow]

/-- Claim C15: in every Playing state reached from the constructed game by
key presses and updates (restarts included), every body segment of the snake
lies inside the window, with 0 <= x < 800 and 0 <= y < 600, and has both
coordinates equal to integer multiples of the cell size 20. -/
theorem body_in_window_on_grid (d0 : Vector2f) (inputs : List Input)
    (hplay : ((Game.new d0).run inputs).m_gameOver = false) :
    ∀ p ∈ ((Game.new d0).run inputs).m_snake.getBody,
      (0 ≤ p.x ∧ p.x < 800 ∧ 0 ≤ p.y ∧ p.y < 600) ∧
        (∃ k : Int, p.x = 20 * k) ∧ (∃ k : Int, p.y = 20 * k) := by
  intro p hp
  obtain ⟨halign, hwin⟩ := Game.run_body_in_grid d0 inputs
  exact ⟨hwin hplay p hp, halign p hp⟩

theorem body_in_window_on_grid_witness :
    (Game.run (Game.new ⟨20, 0⟩)
        [Input.update true ⟨100, 100⟩, Input.keyPress Key.Down ⟨0, 0⟩,
          Input.update true ⟨0, 0⟩]).m_gameOver = false ∧
      (Game.run (Game.new ⟨20, 0⟩)
        [Input.update true ⟨100, 100⟩, Input.keyPress Key.Down ⟨0, 0⟩,
          Input.update true ⟨0, 0⟩]).m_snake.getBody = [⟨20, 20⟩, ⟨20, 0⟩] ∧
      ((0 : Int) ≤ 20 ∧ (20 : Int) < 800 ∧ (0 : Int) ≤ 20 ∧ (20 : Int) < 600) :=
  ⟨by decide, by decide,
    (body_in_window_on_grid ⟨20, 0⟩
      [Input.update true ⟨100, 100⟩, Input.keyPress Key.Down ⟨0, 0⟩, Input.update true ⟨0, 0⟩]
      (by decide) ⟨20, 20⟩ (by decide)).1⟩

/-! ## Score and length -/

/-- The body length after a move, as an integer: the length before plus the
pending growth. -/
theorem Snake.move_length_int (s : Snake) :
    (s.move.getBody.length : Int) = (s.getBody.length : Int) + specPendingGrowth s := by
  rw [Snake.move_length, specPendingGrowth]
  split_ifs <;> simp

/-- After every run the score is ten times the body length minus one plus the
pending growth. -/
theorem Game.run_score_length (d0 : Vector2f) (inputs : List Input) :
    ((Game.new d0).run inputs).m_score =
      10 * ((((Game.new d0).run inputs).m_snake.getBody.length : Int) - 1 +
        specPendingGrowth ((Game.new d0).run inputs).m_snake) := by
  refine Game.run_induction
    (fun g => g.m_score =
      10 * ((g.m_snake.getBody.length : Int) - 1 + specPendingGrowth g.m_snake))
    (Game.step_induction _ ?_ ?_ ?_ ?_ ?_ ?_) inputs (Game.new d0) ?_
  · intro g hg
    exact hg
  · intro g draw _ _
    simp [Game.reset, Snake.new, Snake.setDirection, Snake.getBody, specPendingGrowth]
  · intro g r hg _ _
    exact hg
  · intro g hg _
    show g.m_score = 10 * ((g.m_snake.move.getBody.length : Int) - 1 +
      specPendingGrowth g.m_snake.move)
    have hzero : specPendingGrowth g.m_snake.move = 0 := by
      simp [specPendingGrowth, Snake.move]
    rw [Snake.move_length_int, hg, hzero]
    ring
  · intro g draw hg _ _ _
    show g.m_score + 10 = 10 * ((g.m_snake.move.getBody.length : Int) - 1 +
      specPendingGrowth g.m_snake.move.grow)
    rw [Snake.move_length_int, hg]
    simp only [specPendingGrowth, Snake.grow, if_true]
    ring
  · intro g hg _ _ _
    show g.m_score = 10 * ((g.m_snake.move.getBody.length : Int) - 1 +
      specPendingGrowth g.m_snake.move)
    have hzero : specPendingGrowth g.m_snake.move = 0 := by
      simp [specPendingGrowth, Snake.move]
    rw [Snake.move_length_int, hg, hzero]
    ring
  · simp [Game.new, Snake.new, Snake.setDirection, Snake.getBody, specPendingGrowth]

/-- Claim C16: score and length stay coupled.  In every state reached from
the constructed game by key presses, updates and restarts, `m_score` is
non-negative and equals 10 x (body length - 1 + g), where g is 1 if a growth
requested by `grow()` is still pending for the next move and 0 otherwise; so
the score is a multiple of 10. -/
theorem score_length_coupled (d0 : Vector2f) (inputs : List Input) :
    0 ≤ ((Game.new d0).run inputs).m_score ∧
      ((Game.new d0).run inputs).m_score =
        10 * ((((Game.new d0).run inputs).m_snake.getBody.length : Int) - 1 +
          (if ((Game.new d0).run inputs).m_snake.growPending = true then 1 else 0)) ∧
      (∃ k : Int, ((Game.new d0).run inputs).m_score = 10 * k) := by
  have h := Game.run_score_length d0 inputs
  have hlen : (1 : Int) ≤ (((Game.new d0).run inputs).m_snake.getBody.length : Int) := by
    simp [Snake.getBody]
  have hpend : 0 ≤ specPendingGrowth ((Game.new d0).run inputs).m_snake := by
    unfold specPendingGrowth
    split_ifs <;> decide
  refine ⟨?_, h, ⟨_, h⟩⟩
  rw [h]
  have : 0 ≤ (((Game.new d0).run inputs).m_snake.getBody.length : Int) - 1 +
      specPendingGrowth ((Game.new d0).run inputs).m_snake := by omega
  omega

end SnakeGame
